import Mathlib

/-!
Shallow embedding of the scheduling engine of `vaccine_helper`
(src/src/schedule.rs), together with proofs checking the natural-language
specification against it.

Modelling conventions:
* Rust machine integers (`i16`, `i8`, `u8`) are modelled as `Int`/`Nat`;
  fallible conversions (`try_into`) check the explicit bounds.
* `jiff::Zoned` instants are modelled at month granularity as a
  `(year, month)` pair, because the engine only ever uses the year, the
  month, and whole-month differences between instants
  (`Span::round(smallest(Unit::Month))`).
* Fallible/partial Rust code is modelled with the `Outcome` type below:
  `Outcome.error` models an `Err` propagated with `?`, while
  `Outcome.panicked` models `assert!`/`unwrap`/`expect` aborts.
* Rust `/` and `%` on integers truncate toward zero, which is `Int.tdiv`
  and `Int.tmod`.
-/

namespace VaccineHelper

/-- Result of running a piece of fallible Rust code: a value, a propagated
`Err` (the `?` operator), or an aborted execution (`assert!`, `unwrap`,
`expect`). -/
inductive Outcome (α : Type) where
  | ok (val : α)
  | error (msg : String)
  | panicked (msg : String)
deriving DecidableEq

/-- Sequencing of fallible computations (Rust `?` / method chaining). -/
def Outcome.bind {α β : Type} : Outcome α → (α → Outcome β) → Outcome β
  | .ok a, f => f a
  | .error m, _ => .error m
  | .panicked m, _ => .panicked m

/-- Models `i32 -> i16` `try_into()`, as used on rounded month spans. -/
def toI16 (x : Int) : Outcome Int :=
  if x < -32768 ∨ 32767 < x then .error "out of range integral type conversion attempted"
  else .ok x

/-- Models `i16 -> usize` `try_into()`, as used on `Years(n)`. -/
def toUsize (x : Int) : Outcome Int :=
  if x < 0 then .error "out of range integral type conversion attempted"
  else .ok x

/-- Models `i16::saturating_add` on the year component in `mo_to_ym`. -/
def saturating_add_i16 (a b : Int) : Int :=
  min 32767 (max (-32768) (a + b))

/-- Rust `DoseKind` from schedule.rs: `Dose(u8)` or `Booster`. -/
inductive DoseKind where
  | Dose (index : Nat)
  | Booster
deriving DecidableEq

/-- Month-granularity model of a `jiff::Zoned` instant: a calendar year and
a 1-based month. -/
structure Date where
  year : Int
  month : Int
deriving DecidableEq

/-- Month-granularity model of `&d - now` rounded to whole months
(`SpanRound::new().smallest(Unit::Month)`): the signed number of whole
months from `now` to `d` (non-positive for past dates). -/
def monthsBetween (d now : Date) : Int :=
  (d.year * 12 + d.month) - (now.year * 12 + now.month)

/-- Rust `VaccineRecord` from schedule.rs. -/
structure VaccineRecord where
  vaccine : String
  date : Date
  kind : DoseKind
  notes : String
deriving DecidableEq

/-- The `Ord` of `VaccineRecord` compares dates; at month granularity this
is the lexicographic (year, month) order. Used by the
`vaccine_records.is_sorted()` assertion. -/
def VaccineRecord.dateLe (a b : VaccineRecord) : Bool :=
  if a.date.year = b.date.year then decide (a.date.month ≤ b.date.month)
  else decide (a.date.year < b.date.year)

/-- Models `slice::is_sorted()` over vaccine records (by date). -/
def records_sorted : List VaccineRecord → Bool
  | [] => true
  | [_] => true
  | a :: b :: rest => VaccineRecord.dateLe a b && records_sorted (b :: rest)

/-- Rust `VaccineAppointment` from schedule.rs. -/
structure VaccineAppointment where
  vaccine : String
  kind : DoseKind
  year : Int
  month : Int
deriving DecidableEq

/-- Rust `DoseSchedule` from schedule.rs. -/
inductive DoseSchedule where
  | Single
  | Repeated (number : Nat) (interval : Int)
  | RepeatedRange (number : Nat) (minimum maximum : Int)
deriving DecidableEq

/-- Rust `BoosterSchedule` from schedule.rs. -/
inductive BoosterSchedule where
  | Seasonal
  | Years (n : Int)
  | Lifetime
deriving DecidableEq

/-- Rust `DoseSchedule::all_doses`. -/
def DoseSchedule.all_doses : DoseSchedule → List (DoseKind × Int)
  | .Single => [(DoseKind.Dose 0, 0)]
  | .Repeated number interval =>
      (List.range number).map fun i => (DoseKind.Dose i, (i : Int) * interval)
  | .RepeatedRange number minimum _ =>
      (List.range number).map fun i => (DoseKind.Dose i, (i : Int) * minimum)

/-- Rust `DoseSchedule::minimum_dose_interval`. -/
def DoseSchedule.minimum_dose_interval : DoseSchedule → Int
  | .Single => 0
  | .Repeated _ interval => interval
  | .RepeatedRange _ minimum _ => minimum

/-- Rust `DoseSchedule::all_months`: the month offsets of all doses still needed,
given the dose records for this vaccine (the caller filters the records to
`DoseKind::Dose` entries before calling). -/
def DoseSchedule.all_months (s : DoseSchedule) (now : Date)
    (dose_records : List VaccineRecord) : Outcome (List (DoseKind × Int)) :=
  if dose_records = [] then Outcome.ok s.all_doses
  else
    let dose_record_kinds := dose_records.map VaccineRecord.kind
    let required_doses :=
      s.all_doses.filter fun kd => !(decide (kd.1 ∈ dose_record_kinds))
    match required_doses with
    | [] => Outcome.ok []
    | (_, next_dose_mo) :: _ =>
        match dose_records.getLast? with
        | none => Outcome.panicked "called Option::unwrap on a None value"
        | some lastRec =>
            Outcome.bind (toI16 (monthsBetween lastRec.date now)) fun last_dose_mo =>
              if 0 < last_dose_mo then
                Outcome.panicked "dose record in future in dose schedule"
              else
                let min_interval := s.minimum_dose_interval
                let min_dose_offset :=
                  if min_interval < -last_dose_mo then 0
                  else min_interval + last_dose_mo
                if min_dose_offset < 0 then
                  Outcome.panicked "assertion failed: min_dose_offset >= 0"
                else
                  let shifted := required_doses.map fun kd =>
                    (kd.1, kd.2 - next_dose_mo + min_dose_offset)
                  if shifted.any fun kd => decide (kd.2 < 0) then
                    Outcome.panicked "assertion failed: *mo >= 0"
                  else Outcome.ok shifted

/-- Rust `BoosterSchedule::duration`. -/
def BoosterSchedule.duration : BoosterSchedule → Int
  | .Seasonal => 12
  | .Years n => 12 * n
  | .Lifetime => 12 * 25

/-- The loop body of the local fn `push_stepped` in
`BoosterSchedule::all_months`: `for mo in (start_mo..=end_mo).step_by(step)`
pushes `(DoseKind::Booster, mo)` for `mo = start_mo, start_mo + step, ...`
while `mo ≤ end_mo`. Defined in closed form so that it is kernel
computable; `push_stepped_unfold` below certifies that it satisfies the
recurrence of the loop. A `step_by` step of 0 panics in Rust; callers
(`BoosterSchedule.generate`) check that separately, so here `step ≤ 0`
yields the empty list. -/
def push_stepped (start_mo end_mo step : Int) : List (DoseKind × Int) :=
  if 0 < step ∧ start_mo ≤ end_mo then
    (List.range ((end_mo - start_mo).toNat / step.toNat + 1)).map
      fun (k : Nat) => (DoseKind.Booster, start_mo + (k : Int) * step)
  else []

/-- The `Seasonal` branch correction applied to `next_booster_mo` in
`BoosterSchedule::all_months` before stepping. -/
def seasonal_adjust (next_booster_mo : Int) : Int :=
  if next_booster_mo < 8 then 8
  else if 10 < next_booster_mo then 12 + 8
  else next_booster_mo

/-- The generation stage of `BoosterSchedule::all_months` (the `match self`
block at the end of the function), given the already-computed
`next_booster_mo` anchor. The `step_by` argument is `12 * step_y`; Rust
panics when it is zero, which only happens for `Years(0)`. -/
def BoosterSchedule.generate (s : BoosterSchedule) (next_booster_mo limit_mo : Int) :
    Outcome (List (DoseKind × Int)) :=
  match s with
  | .Seasonal =>
      Outcome.ok (push_stepped (seasonal_adjust next_booster_mo) limit_mo (12 * 1))
  | .Years n =>
      Outcome.bind (toUsize n) fun step_y =>
        if 12 * step_y = 0 then
          Outcome.panicked "Step must be greater than zero"
        else Outcome.ok (push_stepped next_booster_mo limit_mo (12 * step_y))
  | .Lifetime =>
      Outcome.ok (push_stepped next_booster_mo limit_mo (12 * 25))

/-- Rust `BoosterSchedule::all_months`: month offsets of all future boosters. -/
def BoosterSchedule.all_months (s : BoosterSchedule) (now : Date) (limit_mo : Int)
    (planned_last_dose_mo : Option Int) (vaccine_records : List VaccineRecord) :
    Outcome (List (DoseKind × Int)) :=
  match planned_last_dose_mo with
  | some last_dose_mo => s.generate (last_dose_mo + s.duration) limit_mo
  | none =>
      if !records_sorted vaccine_records then
        Outcome.panicked "assertion failed: vaccine_records.is_sorted()"
      else
        match vaccine_records.getLast? with
        | none => Outcome.panicked "no vaccine records and no scheduled last dose of initial series"
        | some last =>
            Outcome.bind (toI16 (monthsBetween last.date now)) fun last_dose_mo =>
              if 0 < last_dose_mo then
                Outcome.panicked "dose record in future in booster schedule"
              else
                let interval := s.duration
                let offset :=
                  if interval < -last_dose_mo then 0
                  else interval + last_dose_mo
                if offset < 0 then Outcome.panicked "assertion failed: offset >= 0"
                else s.generate offset limit_mo

/-- Rust `Vaccine` from schedule.rs. -/
structure Vaccine where
  name : String
  treats : List String
  initial_schedule : DoseSchedule
  booster_schedule : BoosterSchedule
  notes : String
  recommended : Bool
deriving DecidableEq

/-- Rust `Vaccine::all_doses`: all doses needed starting at `now`, initial series
followed by boosters. -/
def Vaccine.all_doses (v : Vaccine) (now : Date) (records : List VaccineRecord)
    (end_plan_mo : Int) : Outcome (List (DoseKind × Int)) :=
  let dose_records := records.filter fun r =>
    match r.kind with | .Dose _ => true | .Booster => false
  Outcome.bind (v.initial_schedule.all_months now dose_records) fun initial =>
    Outcome.bind
      (v.booster_schedule.all_months now end_plan_mo
        ((initial.getLast?).map Prod.snd) records) fun booster =>
      Outcome.ok (initial ++ booster)

/-- The static vaccine catalog from `Vaccine::get_vaccines`, in source
order. The `HashMap` keys equal the `name` field of each entry, so the map is
modelled by name lookup over this list. -/
def Vaccine.get_vaccines : List Vaccine := [
  ⟨"COVID-19", ["COVID-19"], .RepeatedRange 2 1 2, .Seasonal,
    "Get a booster in Sept/Oct to catch any new variants.", true⟩,
  ⟨"Flu", ["Flu"], .Single, .Seasonal,
    "Get a booster in Sept/Oct to catch any new variants. Get a second dose in the middle of the season if you have no prior exposure.", true⟩,
  ⟨"Tdap", ["Tuberculosis", "Tetanus", "Diphtheria", "Pertussis"], .Repeated 3 6, .Years 10,
    "Tuberculosis is humanity's greatest adversary; please do your part by getting vaccinated and staying up to date with boosters!", true⟩,
  ⟨"Mpox", ["Monkeypox", "Smallpox"], .RepeatedRange 2 1 6, .Years 5,
    "The 'M' is for both \"Monkey\" and Small", true⟩,
  ⟨"Meningitis", ["Meningitis"], .Repeated 2 6, .Years 5,
    "Only recommended for adults that are exposed regularly, but low risk to get it so why not?", true⟩,
  ⟨"MMR", ["Measles", "Mumps", "Rubella"], .Repeated 2 (5 * 12), .Years 5,
    "Recommended for children and immuno-compromised, but again low risk so why not? Note: measles and rubella are lifetime immunity, but mumps requires a 5 year booster.", true⟩,
  ⟨"Shinglex", ["Shingles"], .RepeatedRange 2 2 6, .Years 7,
    "Recommended for children and immuno-compromised, but again low risk so why not?", true⟩,
  ⟨"PCV20", ["Pneumonia"], .Repeated 2 6, .Lifetime,
    "Recommended for at risk and 50+, but no risk to get it sooner, so why not?", true⟩,
  ⟨"Gardacil-9", ["Human Papillomavirus (HPV)"], .Repeated 3 6, .Lifetime,
    "HPV causes cancer in men and women both. Don't ignore it just because you haven't been specifically advertised to.", true⟩,
  ⟨"Hepatitis B", ["Hepatitis B"], .Single, .Lifetime,
    "Greater than 30 years proven durability. Definitely worth it.", true⟩,
  ⟨"Hepatitis A", ["Hepatitis A"], .Repeated 2 6, .Lifetime,
    "Greater than 25 years proven durability. Definitely worth it.", true⟩,
  ⟨"Hepatitis A&B", ["Hepatitis A", "Hepatitis B"], .Repeated 3 6, .Lifetime,
    "Not recommended for adults despite hepA/hepB being individually recommended.", false⟩,
  ⟨"IPV", ["Polio"], .Repeated 4 4, .Lifetime,
    "No recommendation for adults, but get a booster if you're at risk or risk averse.", true⟩,
  ⟨"Chickenpox", ["Chickenpox"], .RepeatedRange 2 1 6, .Lifetime,
    "Recommended if at risk or haven't had chickenpox yet, but low risk so why not?", true⟩]

/-- Rust `Vaccine::get_vaccines().get(name)`: lookup in the catalog by name. -/
def Vaccine.get_vaccine (name : String) : Option Vaccine :=
  Vaccine.get_vaccines.find? fun v => v.name == name

/-- Rust `VaccineAppointment::mo_to_ym`: convert a month offset from `now` into
an absolute (year, month) pair. The offset arithmetic
`month as i16 + mo - 1` is `i16`: overflowing either operation is an
arithmetic error in Rust, modelled as a panic (debug builds abort at the
operation itself; with release wrapping the wrapped negative offset then
fails the month-range assertion except when it is an exact multiple of
12). Rust `/` and `%` on `i16` truncate toward zero
(`Int.tdiv`/`Int.tmod`); the `(1..=12)` assertion and the `saturating_add`
on the year are modelled explicitly. (The `month as i16` cast of an `i8`
month cannot overflow, and the final `i8` conversion always succeeds
since `month_offset % 12 + 1` lies in `-10..=12`.) -/
def VaccineAppointment.mo_to_ym (now : Date) (mo : Int) : Outcome (Int × Int) :=
  let month := now.month
  let year := now.year
  if month + mo < -32768 ∨ 32767 < month + mo then
    Outcome.panicked "attempt to add with overflow"
  else if month + mo - 1 < -32768 ∨ 32767 < month + mo - 1 then
    Outcome.panicked "attempt to subtract with overflow"
  else
    let month_offset := month + mo - 1
    let year_offset := Int.tdiv month_offset 12
    let m := Int.tmod month_offset 12 + 1
    if 1 ≤ m ∧ m ≤ 12 then Outcome.ok (saturating_add_i16 year year_offset, m)
    else Outcome.panicked "assertion failed: (1..=12).contains(&month)"

/-- Rust `VaccineAppointment::from_month_offset`. -/
def VaccineAppointment.from_month_offset (vaccine : String) (kind : DoseKind)
    (now : Date) (mo : Int) : Outcome VaccineAppointment :=
  Outcome.bind (VaccineAppointment.mo_to_ym now mo) fun ym =>
    Outcome.ok ⟨vaccine, kind, ym.1, ym.2⟩

/-- The comparator used by `appointments.sort()`: `Ord for
VaccineAppointment` compares year, then month. `appointment_le a b` is
`a.cmp(b) != Ordering::Greater`. -/
def appointment_le (a b : VaccineAppointment) : Bool :=
  if a.year = b.year then decide (a.month ≤ b.month)
  else decide (a.year < b.year)

/-- Stable insertion used to model `Vec::sort` (Rust guarantees a stable
sort): insert `a` before the first element it is `≤`, i.e. after every
strictly smaller element. -/
def insert_appt (a : VaccineAppointment) :
    List VaccineAppointment → List VaccineAppointment
  | [] => [a]
  | b :: t => if appointment_le a b then a :: b :: t else b :: insert_appt a t

/-- Model of `appointments.sort()`: a stable sort by `appointment_le`. A
stable sort result is uniquely determined by the comparator and the input
order, so any stable sort models `Vec::sort` exactly. -/
def sort_appts : List VaccineAppointment → List VaccineAppointment
  | [] => []
  | a :: t => insert_appt a (sort_appts t)

/-- The inner `for (kind, dose_mo)` loop of `Vaccine::schedule`: convert
each `(kind, offset)` pair into an appointment for `vaccine_name`. -/
def appointments_for (vaccine_name : String) (now : Date) :
    List (DoseKind × Int) → Outcome (List VaccineAppointment)
  | [] => Outcome.ok []
  | (kind, mo) :: rest =>
      Outcome.bind (VaccineAppointment.from_month_offset vaccine_name kind now mo) fun a =>
        Outcome.bind (appointments_for vaccine_name now rest) fun tail =>
          Outcome.ok (a :: tail)

/-- The `for vaccine_name in prio` loop of `Vaccine::schedule`:
`vaccines.get(...).unwrap()` panics on an unknown name; otherwise the
records are filtered to this vaccine and its doses are appended. -/
def Vaccine.scheduleLoop (now : Date) (limit_mo : Int) (records : List VaccineRecord) :
    List String → Outcome (List VaccineAppointment)
  | [] => Outcome.ok []
  | vaccine_name :: rest =>
      match Vaccine.get_vaccine vaccine_name with
      | none => Outcome.panicked "called Option::unwrap on a None value"
      | some vaccine =>
          let vaccine_records := records.filter fun r => r.vaccine == vaccine.name
          Outcome.bind (vaccine.all_doses now vaccine_records limit_mo) fun doses =>
            Outcome.bind (appointments_for vaccine.name now doses) fun appts =>
              Outcome.bind (Vaccine.scheduleLoop now limit_mo records rest) fun tail =>
                Outcome.ok (appts ++ tail)

/-- Rust `Vaccine::schedule`: schedule all vaccines in `prio` until
`end_plan_year`, then stable-sort the appointments. -/
def Vaccine.schedule (now : Date) (prio : List String) (end_plan_year : Int)
    (records : List VaccineRecord) : Outcome (List VaccineAppointment) :=
  let current_year := now.year
  let limit_mo := (end_plan_year - current_year) * 12
  Outcome.bind (Vaccine.scheduleLoop now limit_mo records prio) fun appointments =>
    Outcome.ok (sort_appts appointments)

/-- The number of offsets that the stepped range `(anchor..=limit)` with a
positive `step` produces. -/
def step_count (anchor limit step : Int) : Nat :=
  if anchor ≤ limit then (limit - anchor).toNat / step.toNat + 1 else 0

/-- The anchor actually used by the generation stage: `Seasonal` applies
the calendar-window correction, the other variants use the anchor as-is. -/
def booster_anchor (s : BoosterSchedule) (anchor : Int) : Int :=
  match s with
  | .Seasonal => seasonal_adjust anchor
  | _ => anchor

/-! ### Lemmas about `push_stepped` -/

/-- The function `push_stepped` satisfies the recurrence of the Rust loop
`for mo in (start_mo..=end_mo).step_by(step) { out.push((Booster, mo)) }`:
when the (positive-step) range is non-empty it yields `start_mo` and then
continues from `start_mo + step`. This certifies the closed form used in
the definition. -/
theorem push_stepped_unfold (start_mo end_mo step : Int) :
    push_stepped start_mo end_mo step =
      if 0 < step ∧ start_mo ≤ end_mo then
        (DoseKind.Booster, start_mo) :: push_stepped (start_mo + step) end_mo step
      else [] := by
  unfold push_stepped
  by_cases h : 0 < step ∧ start_mo ≤ end_mo
  · obtain ⟨hs, hle⟩ := h
    rw [if_pos ⟨hs, hle⟩, if_pos ⟨hs, hle⟩]
    by_cases h2 : start_mo + step ≤ end_mo
    · rw [if_pos ⟨hs, h2⟩]
      have hstep : 0 < step.toNat := by omega
      have hkey : (end_mo - start_mo).toNat = (end_mo - (start_mo + step)).toNat + step.toNat := by
        omega
      rw [hkey, Nat.add_div_right _ hstep, List.range_succ_eq_map, List.map_cons, List.map_map]
      refine congrArg₂ _ (by simp) ?_
      refine List.map_congr_left fun a _ => ?_
      simp only [Function.comp_apply, Prod.mk.injEq, true_and]
      push_cast
      ring
    · rw [if_neg fun hc => h2 hc.2]
      have hlt : (end_mo - start_mo).toNat < step.toNat := by omega
      rw [Nat.div_eq_of_lt hlt]
      simp [List.range_succ]
  · rw [if_neg h, if_neg h]

theorem push_stepped_eq_range (start_mo end_mo step : Int) (h : 0 < step) :
    push_stepped start_mo end_mo step =
      (List.range (step_count start_mo end_mo step)).map
        fun (k : Nat) => (DoseKind.Booster, start_mo + (k : Int) * step) := by
  unfold push_stepped step_count
  by_cases hle : start_mo ≤ end_mo
  · rw [if_pos ⟨h, hle⟩, if_pos hle]
  · rw [if_neg fun hc => hle hc.2, if_neg hle]
    simp

/-- A stepped index `k` is produced exactly when its offset
`anchor + k * step` does not exceed the (inclusive) limit. -/
theorem step_count_iff (anchor limit step : Int) (hstep : 0 < step) (k : Nat) :
    k < step_count anchor limit step ↔ anchor + (k : Int) * step ≤ limit := by
  unfold step_count
  by_cases h : anchor ≤ limit
  · rw [if_pos h, Nat.lt_succ_iff, Nat.le_div_iff_mul_le (by omega : 0 < step.toNat),
      ← Nat.cast_le (α := Int)]
    push_cast [Int.toNat_of_nonneg (by omega : (0 : Int) ≤ limit - anchor),
      Int.toNat_of_nonneg hstep.le]
    constructor <;> intro h' <;> linarith
  · rw [if_neg h]
    have hk : (0 : Int) ≤ (k : Int) * step := mul_nonneg (Nat.cast_nonneg k) hstep.le
    simp only [Nat.not_lt_zero, false_iff]
    intro hc
    linarith

/-- On every non-failing path, the generation stage produces exactly the
stepped range from the (window-corrected, for `Seasonal`) anchor with step
`duration()`, and the duration is positive. `Years n` fails for `n ≤ 0`
(`try_into` error for `n < 0`, `step_by(0)` panic for `n = 0`). -/
theorem generate_eq (s : BoosterSchedule) (anchor limit : Int)
    (hn : ∀ n, s = .Years n → 1 ≤ n) :
    BoosterSchedule.generate s anchor limit =
      Outcome.ok (push_stepped (booster_anchor s anchor) limit s.duration) ∧
    0 < s.duration := by
  cases s with
  | Seasonal =>
      refine ⟨?_, by norm_num [BoosterSchedule.duration]⟩
      simp only [BoosterSchedule.generate, booster_anchor, BoosterSchedule.duration]
      norm_num
  | Years n =>
      have h1 : 1 ≤ n := hn n rfl
      refine ⟨?_, by simp only [BoosterSchedule.duration]; linarith⟩
      simp only [BoosterSchedule.generate, toUsize, booster_anchor, BoosterSchedule.duration]
      rw [if_neg (by omega : ¬(n < 0))]
      · simp only [Outcome.bind]
        rw [if_neg (by omega : ¬(12 * n = 0))]
  | Lifetime =>
      refine ⟨?_, by norm_num [BoosterSchedule.duration]⟩
      simp only [BoosterSchedule.generate, booster_anchor, BoosterSchedule.duration]

/-- C3 counterexample. The claim says the limit is excluded
("offset strictly less than limit_mo"), but the Rust range is inclusive
(`start..=end`): a `Years(1)` schedule with anchor 0 and limit 12 produces
a booster at offset 12 even though `12 < 12` is false. Under the claim the
produced list would have been `[(Booster, 0)]`. -/
theorem C3_counterexample :
    BoosterSchedule.generate (BoosterSchedule.Years 1) 0 12 =
      Outcome.ok [(DoseKind.Booster, 0), (DoseKind.Booster, 12)] ∧
    ¬((12 : Int) < 12) :=
  ⟨by decide, by decide⟩

/-- C3 (amended): for every booster schedule (with `Years n` requiring
`1 ≤ n`; `n ≤ 0` fails), anchor offset and limit, the produced list is
exactly one `(Booster, offset)` for each `offset = base + k * duration()`
(`k = 0, 1, 2, ...`) with `offset ≤ limit_mo` (limit INCLUDED), in
increasing order of `k`, where `base` is the window-corrected anchor for
`Seasonal` and the given anchor otherwise, and `duration()` is 12 for
`Seasonal`, `12n` for `Years(n)` and 300 for `Lifetime`. -/
theorem C3_generate_amended (s : BoosterSchedule) (anchor limit_mo : Int)
    (hn : ∀ n, s = .Years n → 1 ≤ n) :
    BoosterSchedule.generate s anchor limit_mo =
      Outcome.ok ((List.range (step_count (booster_anchor s anchor) limit_mo s.duration)).map
        fun (k : Nat) => (DoseKind.Booster, booster_anchor s anchor + (k : Int) * s.duration)) ∧
    ∀ k : Nat,
      (k < step_count (booster_anchor s anchor) limit_mo s.duration ↔
        booster_anchor s anchor + (k : Int) * s.duration ≤ limit_mo) := by
  obtain ⟨hgen, hdur⟩ := generate_eq s anchor limit_mo hn
  refine ⟨?_, fun k => step_count_iff _ _ _ hdur k⟩
  rw [hgen, push_stepped_eq_range _ _ _ hdur]

/-- Witness for C3 (amended): `Lifetime` boosters with anchor 0 and limit
12 yield exactly the single offset 0. -/
theorem C3_generate_amended_witness :
    BoosterSchedule.generate BoosterSchedule.Lifetime 0 12 =
      Outcome.ok [(DoseKind.Booster, 0)] := by
  have h := (C3_generate_amended BoosterSchedule.Lifetime 0 12 (fun n hn => by cases hn)).1
  rw [h]
  decide

/-! ### Calendar conversion -/

/-- When the 0-based month offset `month + mo - 1` is non-negative and the
`i16` addition `month + mo` does not overflow, the conversion succeeds,
with a month in `1..=12`. -/
theorem mo_to_ym_of_nonneg (now : Date) (mo : Int) (h : 0 ≤ now.month + mo - 1)
    (hof : now.month + mo ≤ 32767) :
    VaccineAppointment.mo_to_ym now mo =
      Outcome.ok (saturating_add_i16 now.year (Int.tdiv (now.month + mo - 1) 12),
        Int.tmod (now.month + mo - 1) 12 + 1) ∧
    1 ≤ Int.tmod (now.month + mo - 1) 12 + 1 ∧
    Int.tmod (now.month + mo - 1) 12 + 1 ≤ 12 := by
  have h1 : 0 ≤ Int.tmod (now.month + mo - 1) 12 := Int.tmod_nonneg 12 h
  have h2 : Int.tmod (now.month + mo - 1) 12 < 12 :=
    Int.tmod_lt_of_pos _ (by norm_num)
  unfold VaccineAppointment.mo_to_ym
  rw [if_neg (by omega), if_neg (by omega), if_pos ⟨by omega, by omega⟩]
  exact ⟨rfl, by omega, by omega⟩

/-- C4 counterexample. The claim quantifies over every non-negative month
offset from a valid reference, but the offset arithmetic is `i16`: at the
valid reference December 2025 (month 12 is in `1..=12`) with the valid
non-negative `i16` offset 32767, the addition `month as i16 + mo`
overflows and the program panics (debug builds at the add; under release
wrapping the wrapped negative offset fails the month-range assertion)
instead of returning the advanced `(year, month)` pair. -/
theorem C4_counterexample :
    (1 ≤ (12 : Int) ∧ (12 : Int) ≤ 12 ∧ (0 : Int) ≤ 32767 ∧ (32767 : Int) ≤ 32767) ∧
    VaccineAppointment.mo_to_ym ⟨2025, 12⟩ 32767 =
      Outcome.panicked "attempt to add with overflow" :=
  ⟨by decide, by decide⟩

/-- C4 (amended): for every reference instant with month in `1..=12` and
every non-negative month offset `mo` such that the `i16` addition
`month + mo` does not overflow (and the resulting year fits in `i16`, so
the saturating add is exact), the returned `(year, month)` is the
reference advanced by `mo` months: the month is in `1..=12`, the pair
satisfies `y * 12 + m = year * 12 + month + mo` (year adjusted across year
boundaries), and offset 0 returns the reference instant. Concretely, from
a June-2025 reference: offset 0 gives (2025, 6), offset 6 gives (2025, 12)
and offset 7 gives (2026, 1). -/
theorem C4_mo_to_ym_advances (now : Date) (mo : Int)
    (hm1 : 1 ≤ now.month) (hm2 : now.month ≤ 12) (hmo : 0 ≤ mo)
    (hof : now.month + mo ≤ 32767)
    (hlo : -32768 ≤ now.year + Int.tdiv (now.month + mo - 1) 12)
    (hhi : now.year + Int.tdiv (now.month + mo - 1) 12 ≤ 32767) :
    (∃ y m : Int, VaccineAppointment.mo_to_ym now mo = Outcome.ok (y, m) ∧
      1 ≤ m ∧ m ≤ 12 ∧ y * 12 + m = now.year * 12 + now.month + mo ∧
      (mo = 0 → y = now.year ∧ m = now.month)) ∧
    VaccineAppointment.mo_to_ym ⟨2025, 6⟩ 0 = Outcome.ok (2025, 6) ∧
    VaccineAppointment.mo_to_ym ⟨2025, 6⟩ 6 = Outcome.ok (2025, 12) ∧
    VaccineAppointment.mo_to_ym ⟨2025, 6⟩ 7 = Outcome.ok (2026, 1) := by
  refine ⟨?_, by decide, by decide, by decide⟩
  obtain ⟨hok, hml, hmr⟩ := mo_to_ym_of_nonneg now mo (by omega) hof
  have hsat : saturating_add_i16 now.year (Int.tdiv (now.month + mo - 1) 12) =
      now.year + Int.tdiv (now.month + mo - 1) 12 := by
    unfold saturating_add_i16
    omega
  have hdm := Int.tdiv_add_tmod (now.month + mo - 1) 12
  refine ⟨now.year + Int.tdiv (now.month + mo - 1) 12,
    Int.tmod (now.month + mo - 1) 12 + 1, by rw [hok, hsat], hml, hmr, by linarith, ?_⟩
  intro h0
  subst h0
  constructor
  · have : Int.tdiv (now.month + 0 - 1) 12 = 0 := by
      have := Int.tmod_lt_of_pos (now.month + 0 - 1) (by norm_num : (0:Int) < 12)
      have := Int.tmod_nonneg (a := now.month + 0 - 1) 12 (by omega)
      omega
    omega
  · omega

/-- Witness for C4 at the concrete input `now = June 2025`, `mo = 7`:
since `1 ≤ m ≤ 12` and `y * 12 + m = 2025 * 12 + 13`, the advanced pair is
uniquely `(2026, 1)`. -/
theorem C4_mo_to_ym_advances_witness :
    VaccineAppointment.mo_to_ym ⟨2025, 6⟩ 7 = Outcome.ok (2026, 1) := by
  obtain ⟨⟨y, m, hok, h1, h2, h3, _⟩, _⟩ :=
    C4_mo_to_ym_advances ⟨2025, 6⟩ 7 (by norm_num) (by norm_num) (by norm_num)
      (by norm_num) (by norm_num) (by norm_num)
  have h3' : y * 12 + m = 2025 * 12 + 6 + 7 := h3
  have hy : y = 2026 ∧ m = 1 := by constructor <;> omega
  rw [hok, hy.1, hy.2]

/-- C9 counterexample. The claim says calendar conversion never panics for
any integer month offset, including negative ones; but for a June-2025
reference and offset `-6` the 0-based month offset is `-1`, Rust truncated
remainder gives `-1 % 12 = -1`, the computed month is `0`, and the
`(1..=12).contains(&month)` assertion fails: the code panics. -/
theorem C9_counterexample :
    VaccineAppointment.mo_to_ym ⟨2025, 6⟩ (-6) =
      Outcome.panicked "assertion failed: (1..=12).contains(&month)" := by
  decide

/-- C9 (amended): for every reference instant with month in `1..=12` and
every NON-NEGATIVE month offset whose `i16` addition `month + mo` does not
overflow, calendar conversion does not panic: it returns a pair whose
year saturates into the representable `i16` range `-32768..=32767` and
whose month is in `1..=12`. (Negative offsets that land before the
reference month make the month-range assertion fail, and offsets with
`month + mo > 32767` overflow the `i16` addition and panic.) -/
theorem C9_amended (now : Date) (mo : Int)
    (hm1 : 1 ≤ now.month) (hm2 : now.month ≤ 12) (hmo : 0 ≤ mo)
    (hof : now.month + mo ≤ 32767) :
    ∃ y m : Int, VaccineAppointment.mo_to_ym now mo = Outcome.ok (y, m) ∧
      -32768 ≤ y ∧ y ≤ 32767 ∧ 1 ≤ m ∧ m ≤ 12 := by
  obtain ⟨hok, hml, hmr⟩ := mo_to_ym_of_nonneg now mo (by omega) hof
  refine ⟨_, _, hok, ?_, ?_, hml, hmr⟩ <;> unfold saturating_add_i16 <;> omega

/-- Witness for C9 (amended): conversion of offset 6 from June 2025 is a
successful result, not a panic. -/
theorem C9_amended_witness :
    VaccineAppointment.mo_to_ym ⟨2025, 6⟩ 6 ≠
      Outcome.panicked "assertion failed: (1..=12).contains(&month)" := by
  obtain ⟨y, m, hok, -, -, -, -⟩ :=
    C9_amended ⟨2025, 6⟩ 6 (by norm_num) (by norm_num) (by norm_num) (by norm_num)
  rw [hok]
  nofun

/-! ### Future-dated records (C7) -/

/-- C7 counterexample. The claim says a future-dated record makes the
computation return the `InvalidRecord` error as a typed result; but the
code `assert!`s: for a 3-dose/6-month schedule with a `Dose(0)` record
dated 3 months after `now`, `DoseSchedule::all_months` panics with the
assertion message instead of returning an error value. -/
theorem C7_counterexample :
    DoseSchedule.all_months (DoseSchedule.Repeated 3 6) ⟨2025, 6⟩
      [⟨"Tdap", ⟨2025, 9⟩, DoseKind.Dose 0, ""⟩] =
      Outcome.panicked "dose record in future in dose schedule" := by
  decide

/-- C7 (amended): whenever the dose history ends with a record dated in
the future relative to `now` (with a month difference that fits `i16`) and
at least one dose of the series is still outstanding, `all_months` panics
on the `assert!(last_dose_mo <= 0)` assertion rather than returning a
typed error. (With no outstanding dose the future record is silently
ignored and the empty list is returned.) -/
theorem C7_amended (s : DoseSchedule) (now : Date) (dose_records : List VaccineRecord)
    (lastRec : VaccineRecord) (hlast : dose_records.getLast? = some lastRec)
    (hfut : 0 < monthsBetween lastRec.date now)
    (hrange : monthsBetween lastRec.date now ≤ 32767)
    (hrem : s.all_doses.filter
        (fun kd => !(decide (kd.1 ∈ dose_records.map VaccineRecord.kind))) ≠ []) :
    s.all_months now dose_records =
      Outcome.panicked "dose record in future in dose schedule" := by
  have hne : dose_records ≠ [] := by
    intro h
    rw [h] at hlast
    exact Option.noConfusion hlast
  obtain ⟨⟨k0, mo0⟩, rest, hcons⟩ := List.exists_cons_of_ne_nil hrem
  unfold DoseSchedule.all_months
  rw [if_neg hne]
  simp only [hcons, hlast]
  unfold toI16
  rw [if_neg (by omega)]
  simp only [Outcome.bind]
  rw [if_pos hfut]

/-- Witness for C7 (amended) at the concrete counterexample input. -/
theorem C7_amended_witness :
    DoseSchedule.all_months (DoseSchedule.Repeated 3 6) ⟨2025, 6⟩
      [⟨"Mpox", ⟨2026, 1⟩, DoseKind.Dose 0, ""⟩] =
      Outcome.panicked "dose record in future in dose schedule" :=
  C7_amended (DoseSchedule.Repeated 3 6) ⟨2025, 6⟩
    [⟨"Mpox", ⟨2026, 1⟩, DoseKind.Dose 0, ""⟩] ⟨"Mpox", ⟨2026, 1⟩, DoseKind.Dose 0, ""⟩
    (by decide) (by decide) (by decide) (by decide)

/-! ### Remaining-dose computation (C2) -/

/-- Full characterization of `DoseSchedule::all_months` on success: (a) with
no dose records the baseline list is returned unchanged; (b) with a
non-empty dose history the result is the baseline list minus the
already-administered dose kinds, with every remaining offset shifted by
`anchor - next`, where `next` is the baseline offset of the first
remaining dose and the anchor is 0 when the whole months elapsed since the
most recent (last) dose meet or exceed the minimum interval of the schedule and
`minimum - elapsed` otherwise (the uniform shift preserves relative
spacing), and every resulting offset is non-negative; and (c) concretely,
for a 3-dose/6-month series with one `Dose(0)` record 5 months before
`now`, the result is `[(Dose(1), 1), (Dose(2), 7)]`. -/
theorem dose_all_months_spec (s : DoseSchedule) (now : Date)
    (dose_records : List VaccineRecord) (out : List (DoseKind × Int))
    (h : s.all_months now dose_records = Outcome.ok out) :
    (dose_records = [] → out = s.all_doses) ∧
    (∀ lastRec, dose_records.getLast? = some lastRec →
      (out =
        (let elapsed := -(monthsBetween lastRec.date now)
         let anchor := if s.minimum_dose_interval ≤ elapsed then 0
                       else s.minimum_dose_interval - elapsed
         let remaining := s.all_doses.filter
           (fun kd => !(decide (kd.1 ∈ dose_records.map VaccineRecord.kind)))
         let next := remaining.head?.elim 0 Prod.snd
         remaining.map fun kd => (kd.1, kd.2 - next + anchor))) ∧
      ∀ p ∈ out, 0 ≤ p.2) ∧
    DoseSchedule.all_months (DoseSchedule.Repeated 3 6) ⟨2025, 6⟩
      [⟨"Tdap", ⟨2025, 1⟩, DoseKind.Dose 0, ""⟩] =
      Outcome.ok [(DoseKind.Dose 1, 1), (DoseKind.Dose 2, 7)] := by
  refine ⟨?_, ?_, by decide⟩
  · intro hnil
    subst hnil
    unfold DoseSchedule.all_months at h
    rw [if_pos rfl] at h
    simp only [Outcome.ok.injEq] at h
    exact h.symm
  · intro lastRec hlast
    have hne : dose_records ≠ [] := by
      intro hnil
      rw [hnil] at hlast
      exact Option.noConfusion hlast
    unfold DoseSchedule.all_months at h
    rw [if_neg hne] at h
    rcases hreq : s.all_doses.filter
        (fun kd => !(decide (kd.1 ∈ dose_records.map VaccineRecord.kind))) with
      _ | ⟨⟨k0, mo0⟩, rest⟩
    · simp only [hreq, Outcome.ok.injEq] at h
      subst h
      simp only [hreq, List.map_nil, List.not_mem_nil, false_implies, implies_true,
        and_true]
    · simp only [hreq, hlast] at h
      unfold toI16 at h
      by_cases hr : monthsBetween lastRec.date now < -32768 ∨
          32767 < monthsBetween lastRec.date now
      · rw [if_pos hr] at h
        exact Outcome.noConfusion h
      · rw [if_neg hr] at h
        simp only [Outcome.bind] at h
        by_cases hfut : 0 < monthsBetween lastRec.date now
        · rw [if_pos hfut] at h
          exact Outcome.noConfusion h
        · rw [if_neg hfut] at h
          by_cases hmdo : (if s.minimum_dose_interval < -monthsBetween lastRec.date now
              then 0 else s.minimum_dose_interval + monthsBetween lastRec.date now) < 0
          · rw [if_pos hmdo] at h
            exact Outcome.noConfusion h
          · rw [if_neg hmdo] at h
            by_cases hany : (((k0, mo0) :: rest).map fun kd =>
                (kd.1, kd.2 - mo0 +
                  if s.minimum_dose_interval < -monthsBetween lastRec.date now
                  then 0 else s.minimum_dose_interval + monthsBetween lastRec.date now)).any
                  fun kd => decide (kd.2 < 0)
            · rw [if_pos hany] at h
              exact Outcome.noConfusion h
            · rw [if_neg hany] at h
              simp only [Outcome.ok.injEq] at h
              subst h
              constructor
              · simp only [hreq, List.head?_cons, Option.elim_some]
                refine List.map_congr_left fun kd _ => ?_
                have : (if s.minimum_dose_interval < -monthsBetween lastRec.date now
                    then 0 else s.minimum_dose_interval + monthsBetween lastRec.date now) =
                    (if s.minimum_dose_interval ≤ -monthsBetween lastRec.date now
                    then 0 else s.minimum_dose_interval - -monthsBetween lastRec.date now) := by
                  split_ifs <;> omega
                rw [this]
              · intro p hp
                have hfalse := Bool.eq_false_iff.mpr hany
                have := List.any_eq_false.mp hfalse p hp
                simpa using this

/-- C2: on every successful run of the remaining-dose computation, (a) with
no dose records the baseline list is returned unchanged; (b) with a
non-empty dose history the result is the baseline list minus the
already-administered dose kinds, with every remaining offset shifted by
`anchor - next_offset` (anchor as the claim states: 0 when the months
elapsed since the most recent dose meet or exceed the minimum interval,
`minimum - elapsed` otherwise), preserving relative spacing, and all
resulting offsets are non-negative; and (c) concretely a 3-dose/6-month
series with one `Dose(0)` record 5 months old yields
`[(Dose(1), 1), (Dose(2), 7)]`. -/
theorem C2_all_months_remaining (s : DoseSchedule) (now : Date)
    (dose_records : List VaccineRecord) (out : List (DoseKind × Int))
    (h : s.all_months now dose_records = Outcome.ok out) :
    (dose_records = [] → out = s.all_doses) ∧
    (∀ lastRec, dose_records.getLast? = some lastRec →
      (out =
        (let elapsed := -(monthsBetween lastRec.date now)
         let anchor := if s.minimum_dose_interval ≤ elapsed then 0
                       else s.minimum_dose_interval - elapsed
         let remaining := s.all_doses.filter
           (fun kd => !(decide (kd.1 ∈ dose_records.map VaccineRecord.kind)))
         let next := remaining.head?.elim 0 Prod.snd
         remaining.map fun kd => (kd.1, kd.2 - next + anchor))) ∧
      ∀ p ∈ out, 0 ≤ p.2) ∧
    DoseSchedule.all_months (DoseSchedule.Repeated 3 6) ⟨2025, 6⟩
      [⟨"Tdap", ⟨2025, 1⟩, DoseKind.Dose 0, ""⟩] =
      Outcome.ok [(DoseKind.Dose 1, 1), (DoseKind.Dose 2, 7)] :=
  dose_all_months_spec s now dose_records out h

/-- Witness for C2 at the concrete spec example: a 3-dose/6-month series
with one `Dose(0)` record five months old yields `[(Dose(1), 1),
(Dose(2), 7)]`. -/
theorem C2_all_months_remaining_witness :
    DoseSchedule.all_months (DoseSchedule.Repeated 3 6) ⟨2025, 6⟩
      [⟨"Tdap", ⟨2025, 1⟩, DoseKind.Dose 0, ""⟩] =
      Outcome.ok [(DoseKind.Dose 1, 1), (DoseKind.Dose 2, 7)] :=
  (C2_all_months_remaining (DoseSchedule.Repeated 3 6) ⟨2025, 6⟩
      [⟨"Tdap", ⟨2025, 1⟩, DoseKind.Dose 0, ""⟩]
      [(DoseKind.Dose 1, 1), (DoseKind.Dose 2, 7)] (by decide)).2.2

/-! ### Stable sort lemmas (for C1, C8) -/

theorem appointment_le_total (a b : VaccineAppointment) :
    appointment_le a b = true ∨ appointment_le b a = true := by
  unfold appointment_le
  split_ifs <;> simp <;> omega

theorem appointment_le_trans {a b c : VaccineAppointment}
    (h1 : appointment_le a b = true) (h2 : appointment_le b c = true) :
    appointment_le a c = true := by
  unfold appointment_le at h1 h2 ⊢
  split_ifs at h1 h2 ⊢ <;> simp_all <;> omega

theorem mem_insert_appt (x a : VaccineAppointment) (l : List VaccineAppointment) :
    x ∈ insert_appt a l ↔ x = a ∨ x ∈ l := by
  induction l with
  | nil => simp [insert_appt]
  | cons b t ih =>
      unfold insert_appt
      split_ifs with hle
      · simp [List.mem_cons]
      · simp only [List.mem_cons, ih]
        tauto

theorem mem_sort_appts (x : VaccineAppointment) (l : List VaccineAppointment) :
    x ∈ sort_appts l ↔ x ∈ l := by
  induction l with
  | nil => simp [sort_appts]
  | cons a t ih =>
      unfold sort_appts
      rw [mem_insert_appt, ih, List.mem_cons]

theorem pairwise_insert_appt (a : VaccineAppointment) (l : List VaccineAppointment)
    (hl : l.Pairwise fun x y => appointment_le x y = true) :
    (insert_appt a l).Pairwise fun x y => appointment_le x y = true := by
  induction l with
  | nil => simp [insert_appt]
  | cons b t ih =>
      obtain ⟨hb, ht⟩ := List.pairwise_cons.mp hl
      unfold insert_appt
      split_ifs with hle
      · refine List.pairwise_cons.mpr ⟨?_, hl⟩
        intro x hx
        rcases List.mem_cons.mp hx with rfl | hx'
        · exact hle
        · exact appointment_le_trans hle (hb x hx')
      · refine List.pairwise_cons.mpr ⟨?_, ih ht⟩
        intro x hx
        rcases (mem_insert_appt x a t).mp hx with rfl | hx'
        · rcases appointment_le_total x b with h | h
          · exact absurd h hle
          · exact h
        · exact hb x hx'

theorem sorted_sort_appts (l : List VaccineAppointment) :
    (sort_appts l).Pairwise fun x y => appointment_le x y = true := by
  induction l with
  | nil => simp [sort_appts]
  | cons a t ih => exact pairwise_insert_appt a (sort_appts t) ih

theorem filter_insert_appt (p : VaccineAppointment → Bool) (a : VaccineAppointment)
    (l : List VaccineAppointment)
    (hp : ∀ x, p x = true → p a = true → appointment_le a x = true) :
    (insert_appt a l).filter p = if p a then a :: l.filter p else l.filter p := by
  induction l with
  | nil =>
      unfold insert_appt
      rcases hpa : p a with - | -
      · simp [List.filter, hpa]
      · simp [List.filter, hpa]
  | cons b t ih =>
      unfold insert_appt
      split_ifs with hle hpa hpa
      · simp only [List.filter, hpa]
      · simp only [List.filter, hpa]
      · have hpb : p b = false := by
          rcases hq : p b with - | -
          · rfl
          · exact absurd (hp b hq hpa) hle
        simp only [List.filter, hpb, ih, hpa, if_pos]
      · rcases hq : p b with - | -
        · simp only [List.filter, hq, ih, hpa, if_neg]
          simp
        · simp only [List.filter, hq, ih, hpa, if_neg]
          simp

theorem filter_sort_appts (p : VaccineAppointment → Bool) (l : List VaccineAppointment)
    (hp : ∀ x y, p x = true → p y = true → appointment_le x y = true) :
    (sort_appts l).filter p = l.filter p := by
  induction l with
  | nil => rfl
  | cons a t ih =>
      unfold sort_appts
      rw [filter_insert_appt p a (sort_appts t) fun x hx ha => hp a x ha hx, ih,
        List.filter_cons]

/-- Elements with the same (year, month) key are mutually `≤` under the
sort comparator. -/
theorem appointment_le_of_same_key {y m : Int} (x z : VaccineAppointment)
    (hx : decide (x.year = y ∧ x.month = m) = true)
    (hz : decide (z.year = y ∧ z.month = m) = true) :
    appointment_le x z = true := by
  simp only [decide_eq_true_eq] at hx hz
  unfold appointment_le
  rw [if_pos (by omega)]
  simp
  omega

/-! ### C1: the schedule output is sorted and the sort is stable -/

/-- C1: for every input, whenever `schedule` succeeds its appointment list
is sorted ascending by (year, month) (`appointment_le` is exactly
`VaccineAppointment::cmp != Greater`, which compares year then month), and
appointments with equal (year, month) appear in exactly the order in which
the loop produced them (`raw`): caller-supplied vaccine priority order
first, then within-vaccine production order — i.e. the sort is stable. -/
theorem C1_schedule_sorted_stable (now : Date) (prio : List String) (end_plan_year : Int)
    (records : List VaccineRecord) (raw appts : List VaccineAppointment)
    (hraw : Vaccine.scheduleLoop now ((end_plan_year - now.year) * 12) records prio =
      Outcome.ok raw)
    (happ : Vaccine.schedule now prio end_plan_year records = Outcome.ok appts) :
    appts.Pairwise (fun a b => appointment_le a b = true) ∧
    ∀ y m : Int,
      appts.filter (fun a => decide (a.year = y ∧ a.month = m)) =
        raw.filter (fun a => decide (a.year = y ∧ a.month = m)) := by
  simp only [Vaccine.schedule] at happ
  rw [hraw] at happ
  simp only [Outcome.bind, Outcome.ok.injEq] at happ
  subst happ
  exact ⟨sorted_sort_appts raw,
    fun y m => filter_sort_appts _ raw fun x z hx hz => appointment_le_of_same_key x z hx hz⟩

/-- Witness for C1: scheduling just the Flu vaccine from June 2025 until
2026 produces the single initial dose, which is trivially sorted and
stable. -/
theorem C1_schedule_sorted_stable_witness :
    List.Pairwise (fun a b => appointment_le a b = true)
      [(⟨"Flu", DoseKind.Dose 0, 2025, 6⟩ : VaccineAppointment)] :=
  (C1_schedule_sorted_stable ⟨2025, 6⟩ ["Flu"] 2026 []
    [⟨"Flu", DoseKind.Dose 0, 2025, 6⟩] [⟨"Flu", DoseKind.Dose 0, 2025, 6⟩]
    (by decide) (by decide)).1

/-! ### Generic Outcome lemmas -/

theorem bind_ok {α β : Type} {x : Outcome α} {f : α → Outcome β} {b : β}
    (h : Outcome.bind x f = Outcome.ok b) :
    ∃ a, x = Outcome.ok a ∧ f a = Outcome.ok b := by
  cases x with
  | ok a => exact ⟨a, rfl, h⟩
  | error m => exact Outcome.noConfusion h
  | panicked m => exact Outcome.noConfusion h

/-! ### C5: the seasonal window correction is applied in offset space -/

/-- C5 (code-bug evaluation). The seasonal correction compares the month
OFFSET `next_booster_mo` against the 0-based calendar month constants
8..=10 (September..November), which equals the implied calendar month of the
anchor only when `now` falls in January. For a June-2025 reference with a
single Flu dose 12 months old, the anchor offset is 0 — implied calendar
month June, before the September window — so per the claim (and the code
comment "Delay until the seasonal vaccines are available in sept") the
booster should move to September 2025, i.e. offset 3; the code instead
produces offsets 8 and 20, which `mo_to_ym` maps to February 2026 and
February 2027 — outside the intended month range — while offset 3 would
have been September 2025. -/
theorem C5_seasonal_window_divergence :
    BoosterSchedule.all_months BoosterSchedule.Seasonal ⟨2025, 6⟩ 24 none
      [⟨"Flu", ⟨2024, 6⟩, DoseKind.Dose 0, ""⟩] =
      Outcome.ok [(DoseKind.Booster, 8), (DoseKind.Booster, 20)] ∧
    VaccineAppointment.mo_to_ym ⟨2025, 6⟩ 8 = Outcome.ok (2026, 2) ∧
    VaccineAppointment.mo_to_ym ⟨2025, 6⟩ 20 = Outcome.ok (2027, 2) ∧
    VaccineAppointment.mo_to_ym ⟨2025, 6⟩ 3 = Outcome.ok (2025, 9) :=
  ⟨by decide, by decide, by decide, by decide⟩

/-! ### C6: unknown vaccine names -/

/-- An unknown name anywhere in the priority list prevents the loop from
ever returning a successful result (it panics at the `unwrap`, unless an
earlier vaccine already failed). -/
theorem scheduleLoop_unknown (now : Date) (limit_mo : Int) (records : List VaccineRecord)
    (name : String) (hunk : Vaccine.get_vaccine name = none) :
    ∀ prio : List String, name ∈ prio →
      ∀ l, Vaccine.scheduleLoop now limit_mo records prio ≠ Outcome.ok l := by
  intro prio
  induction prio with
  | nil => intro hmem; exact absurd hmem (List.not_mem_nil name)
  | cons hd tl ih =>
      intro hmem l hl
      simp only [Vaccine.scheduleLoop] at hl
      rcases List.mem_cons.mp hmem with rfl | hmem'
      · simp only [hunk] at hl
        exact Outcome.noConfusion hl
      · cases hv : Vaccine.get_vaccine hd with
        | none =>
            simp only [hv] at hl
            exact Outcome.noConfusion hl
        | some v =>
            simp only [hv] at hl
            obtain ⟨doses, h1, hl⟩ := bind_ok hl
            obtain ⟨appts, h2, hl⟩ := bind_ok hl
            obtain ⟨tail, h3, hl⟩ := bind_ok hl
            exact ih hmem' tail h3

/-- C6 counterexample. The claim says an unknown enabled-vaccine name makes
`schedule` return the `UnknownVaccine` error to the caller; but the code
calls `vaccines.get(vaccine_name.as_str()).unwrap()`, which panics — the
result is a panic, not an error value. -/
theorem C6_counterexample :
    Vaccine.schedule ⟨2025, 6⟩ ["Bogus"] 2026 [] =
      Outcome.panicked "called Option::unwrap on a None value" := by
  decide

/-- C6 (amended): for every call to `schedule` in which some enabled
vaccine name has no catalog entry, the call never returns a successful
result — the unknown vaccine is not silently skipped and no partial result
is produced; the call panics at the unknown lookup (or propagates an
earlier failure). -/
theorem C6_amended (now : Date) (prio : List String) (end_plan_year : Int)
    (records : List VaccineRecord) (name : String)
    (hmem : name ∈ prio) (hunk : Vaccine.get_vaccine name = none) :
    ∀ l, Vaccine.schedule now prio end_plan_year records ≠ Outcome.ok l := by
  intro l hl
  simp only [Vaccine.schedule] at hl
  obtain ⟨raw, hraw, -⟩ := bind_ok hl
  exact scheduleLoop_unknown now _ records name hunk prio hmem raw hraw

/-- Witness for C6 (amended): with the valid "Flu" followed by the unknown
"Bogus", no successful (partial) result is returned. -/
theorem C6_amended_witness :
    Vaccine.schedule ⟨2025, 6⟩ ["Flu", "Bogus"] 2026 [] ≠ Outcome.ok [] :=
  C6_amended ⟨2025, 6⟩ ["Flu", "Bogus"] 2026 [] "Bogus" (by decide) (by decide) []

/-! ### C8: negative planning horizon -/

/-- Every baseline entry is a dose `i` at offset `i * minimum`. -/
theorem all_doses_mem (s : DoseSchedule) :
    ∀ p ∈ s.all_doses,
      ∃ i : Nat, p = (DoseKind.Dose i, (i : Int) * s.minimum_dose_interval) := by
  intro p hp
  cases s with
  | Single =>
      simp only [DoseSchedule.all_doses, List.mem_singleton] at hp
      exact ⟨0, by simp [hp, DoseSchedule.minimum_dose_interval]⟩
  | Repeated number interval =>
      simp only [DoseSchedule.all_doses, List.mem_map, List.mem_range] at hp
      obtain ⟨i, -, hi⟩ := hp
      exact ⟨i, hi ▸ rfl⟩
  | RepeatedRange number minimum maximum =>
      simp only [DoseSchedule.all_doses, List.mem_map, List.mem_range] at hp
      obtain ⟨i, -, hi⟩ := hp
      exact ⟨i, hi ▸ rfl⟩

/-- On success, every remaining dose is a `Dose` kind with a non-negative
offset (given a non-negative minimum interval, as in the catalog). -/
theorem dose_all_months_kinds (s : DoseSchedule) (now : Date) (recs : List VaccineRecord)
    (out : List (DoseKind × Int)) (hmin : 0 ≤ s.minimum_dose_interval)
    (h : s.all_months now recs = Outcome.ok out) :
    ∀ p ∈ out, (∃ i, p.1 = DoseKind.Dose i) ∧ 0 ≤ p.2 := by
  obtain ⟨h1, h2, -⟩ := dose_all_months_spec s now recs out h
  by_cases hne : recs = []
  · subst hne
    intro p hp
    rw [h1 rfl] at hp
    obtain ⟨i, hi⟩ := all_doses_mem s p hp
    exact ⟨⟨i, by rw [hi]⟩, by rw [hi]; exact mul_nonneg (Nat.cast_nonneg i) hmin⟩
  · obtain ⟨lastRec, hlast⟩ : ∃ a, recs.getLast? = some a := by
      cases hq : recs.getLast? with
      | none => exact absurd (List.getLast?_eq_none_iff.mp hq) hne
      | some a => exact ⟨a, rfl⟩
    obtain ⟨hout, hnn⟩ := h2 lastRec hlast
    intro p hp
    refine ⟨?_, hnn p hp⟩
    rw [hout] at hp
    simp only [List.mem_map, List.mem_filter] at hp
    obtain ⟨kd, ⟨hkd, -⟩, hpe⟩ := hp
    obtain ⟨i, hi⟩ := all_doses_mem s kd hkd
    exact ⟨i, by rw [← hpe, hi]⟩

theorem push_stepped_empty (start_mo end_mo step : Int) (h : end_mo < start_mo) :
    push_stepped start_mo end_mo step = [] := by
  unfold push_stepped
  rw [if_neg fun hc => absurd hc.2 (by omega)]

/-- With a negative limit and a non-negative anchor (whenever the duration
is positive), the generation stage produces no boosters on success. -/
theorem generate_neg_limit (s : BoosterSchedule) (anchor limit : Int)
    (hanchor : 0 < s.duration → 0 ≤ anchor) (hlim : limit < 0)
    (out : List (DoseKind × Int)) (h : s.generate anchor limit = Outcome.ok out) :
    out = [] := by
  cases s with
  | Seasonal =>
      simp only [BoosterSchedule.generate, Outcome.ok.injEq] at h
      have h8 : 0 ≤ seasonal_adjust anchor := by
        have := hanchor (by norm_num [BoosterSchedule.duration])
        unfold seasonal_adjust
        split_ifs <;> omega
      rw [← h]
      exact push_stepped_empty _ _ _ (by omega)
  | Years n =>
      simp only [BoosterSchedule.generate, toUsize] at h
      by_cases hn : n < 0
      · rw [if_pos hn] at h
        exact Outcome.noConfusion h
      · rw [if_neg hn] at h
        simp only [Outcome.bind] at h
        by_cases hz : 12 * n = 0
        · rw [if_pos hz] at h
          exact Outcome.noConfusion h
        · rw [if_neg hz] at h
          simp only [Outcome.ok.injEq] at h
          have hd : 0 < BoosterSchedule.duration (.Years n) := by
            simp only [BoosterSchedule.duration]
            omega
          have := hanchor hd
          rw [← h]
          exact push_stepped_empty _ _ _ (by omega)
  | Lifetime =>
      simp only [BoosterSchedule.generate, Outcome.ok.injEq] at h
      have := hanchor (by norm_num [BoosterSchedule.duration])
      rw [← h]
      exact push_stepped_empty _ _ _ (by omega)

/-- With a negative limit, `BoosterSchedule::all_months` produces no
boosters on success (assuming a planned last dose, if any, has a
non-negative offset — which holds for offsets coming from
`DoseSchedule::all_months`). -/
theorem booster_neg_limit (s : BoosterSchedule) (now : Date) (limit_mo : Int)
    (planned : Option Int) (recs : List VaccineRecord) (out : List (DoseKind × Int))
    (hlim : limit_mo < 0) (hplanned : ∀ p, planned = some p → 0 ≤ p)
    (h : s.all_months now limit_mo planned recs = Outcome.ok out) :
    out = [] := by
  unfold BoosterSchedule.all_months at h
  cases planned with
  | some p =>
      refine generate_neg_limit s _ _ (fun hdur => ?_) hlim out h
      have hp := hplanned p rfl
      omega
  | none =>
      rcases hs : records_sorted recs with - | -
      · simp [hs] at h
      · rw [if_neg (by simp [hs])] at h
        cases hl : recs.getLast? with
        | none =>
            simp only [hl] at h
            exact Outcome.noConfusion h
        | some last =>
            simp only [hl] at h
            unfold toI16 at h
            by_cases hr : monthsBetween last.date now < -32768 ∨
                32767 < monthsBetween last.date now
            · rw [if_pos hr] at h
              exact Outcome.noConfusion h
            · rw [if_neg hr] at h
              simp only [Outcome.bind] at h
              by_cases hfut : 0 < monthsBetween last.date now
              · rw [if_pos hfut] at h
                exact Outcome.noConfusion h
              · rw [if_neg hfut] at h
                by_cases hoff : (if s.duration < -monthsBetween last.date now then 0
                    else s.duration + monthsBetween last.date now) < 0
                · rw [if_pos hoff] at h
                  exact Outcome.noConfusion h
                · rw [if_neg hoff] at h
                  exact generate_neg_limit s _ _ (fun _ => by omega) hlim out h

theorem from_month_offset_ok (name : String) (kind : DoseKind) (now : Date) (mo : Int)
    (a : VaccineAppointment)
    (h : VaccineAppointment.from_month_offset name kind now mo = Outcome.ok a) :
    a.kind = kind ∧ a.vaccine = name := by
  unfold VaccineAppointment.from_month_offset at h
  obtain ⟨ym, -, h⟩ := bind_ok h
  simp only [Outcome.ok.injEq] at h
  rw [← h]
  exact ⟨rfl, rfl⟩

/-- Every appointment produced by the inner conversion loop carries the
kind (and vaccine name) of one of its input pairs. -/
theorem appointments_for_kinds (name : String) (now : Date) :
    ∀ (pairs : List (DoseKind × Int)) (out : List VaccineAppointment),
      appointments_for name now pairs = Outcome.ok out →
      ∀ a ∈ out, ∃ p ∈ pairs, a.kind = p.1 := by
  intro pairs
  induction pairs with
  | nil =>
      intro out h a ha
      simp only [appointments_for, Outcome.ok.injEq] at h
      rw [← h] at ha
      exact absurd ha (List.not_mem_nil a)
  | cons hd tl ih =>
      intro out h a ha
      obtain ⟨k, mo⟩ := hd
      simp only [appointments_for] at h
      obtain ⟨a0, h1, h⟩ := bind_ok h
      obtain ⟨tail, h2, h⟩ := bind_ok h
      simp only [Outcome.ok.injEq] at h
      rw [← h] at ha
      rcases List.mem_cons.mp ha with rfl | hmem
      · exact ⟨(k, mo), List.mem_cons_self _ _, (from_month_offset_ok name k now mo a h1).1⟩
      · obtain ⟨p, hp, hap⟩ := ih tail h2 a hmem
        exact ⟨p, List.mem_cons_of_mem _ hp, hap⟩

/-- Every catalog entry has a non-negative minimum dose interval. -/
theorem catalog_min_nonneg :
    ∀ v ∈ Vaccine.get_vaccines, 0 ≤ v.initial_schedule.minimum_dose_interval := by
  decide

/-- With a negative limit no appointment produced by the scheduling loop is
a booster: booster generation is empty, and initial-series doses keep their
`Dose` kinds. -/
theorem scheduleLoop_neg_limit (now : Date) (limit_mo : Int) (records : List VaccineRecord)
    (hlim : limit_mo < 0) :
    ∀ (prio : List String) (out : List VaccineAppointment),
      Vaccine.scheduleLoop now limit_mo records prio = Outcome.ok out →
      ∀ a ∈ out, a.kind ≠ DoseKind.Booster := by
  intro prio
  induction prio with
  | nil =>
      intro out h a ha
      simp only [Vaccine.scheduleLoop, Outcome.ok.injEq] at h
      rw [← h] at ha
      exact absurd ha (List.not_mem_nil a)
  | cons hd tl ih =>
      intro out h a ha
      simp only [Vaccine.scheduleLoop] at h
      cases hv : Vaccine.get_vaccine hd with
      | none =>
          simp only [hv] at h
          exact Outcome.noConfusion h
      | some v =>
          simp only [hv] at h
          obtain ⟨doses, h1, h⟩ := bind_ok h
          obtain ⟨appts, h2, h⟩ := bind_ok h
          obtain ⟨tail, h3, h⟩ := bind_ok h
          simp only [Outcome.ok.injEq] at h
          rw [← h] at ha
          rcases List.mem_append.mp ha with hmem | hmem
          · obtain ⟨p, hp, hak⟩ := appointments_for_kinds v.name now doses appts h2 a hmem
            unfold Vaccine.all_doses at h1
            obtain ⟨initial, hi, h1'⟩ := bind_ok h1
            obtain ⟨booster, hb, h1''⟩ := bind_ok h1'
            simp only [Outcome.ok.injEq] at h1''
            have hv' : Vaccine.get_vaccines.find? (fun w => w.name == hd) = some v := hv
            have hv_mem : v ∈ Vaccine.get_vaccines := List.mem_of_find?_eq_some hv'
            have hmin : 0 ≤ v.initial_schedule.minimum_dose_interval :=
              catalog_min_nonneg v hv_mem
            have hboost : booster = [] := by
              refine booster_neg_limit _ now limit_mo _ _ booster hlim ?_ hb
              intro q hq
              obtain ⟨last, hlast, hq2⟩ := Option.map_eq_some'.mp hq
              obtain ⟨hne', heq⟩ :=
                List.mem_getLast?_eq_getLast (Option.mem_def.mpr hlast)
              have hlmem : last ∈ initial := heq ▸ List.getLast_mem hne'
              have := (dose_all_months_kinds _ now _ initial hmin hi last hlmem).2
              omega
            rw [← h1'', hboost, List.append_nil] at hp
            obtain ⟨⟨i, hki⟩, -⟩ := dose_all_months_kinds _ now _ initial hmin hi p hp
            rw [hak, hki]
            exact fun hc => DoseKind.noConfusion hc
          · exact ih tail h3 a hmem

/-- C8 counterexample. With `end_plan_year = 2024` earlier than
`year(now) = 2025`, the limit is negative, yet scheduling Tdap (3-dose
initial series, no records) returns three dose appointments: the
appointment list is NOT empty as the claim states — the initial series
ignores the horizon entirely. -/
theorem C8_counterexample :
    Vaccine.schedule ⟨2025, 6⟩ ["Tdap"] 2024 [] =
      Outcome.ok [⟨"Tdap", DoseKind.Dose 0, 2025, 6⟩, ⟨"Tdap", DoseKind.Dose 1, 2025, 12⟩,
        ⟨"Tdap", DoseKind.Dose 2, 2026, 6⟩] ∧
    ([⟨"Tdap", DoseKind.Dose 0, 2025, 6⟩, ⟨"Tdap", DoseKind.Dose 1, 2025, 12⟩,
        ⟨"Tdap", DoseKind.Dose 2, 2026, 6⟩] : List VaccineAppointment) ≠ [] :=
  ⟨by decide, by decide⟩

/-- C8 (amended): when `end_plan_year` is earlier than the year of `now`
(so the limit is negative), no BOOSTER appointments are generated — the
stepped booster ranges are empty — but remaining initial-series doses are
still scheduled and returned, so the appointment list is not necessarily
empty. -/
theorem C8_amended (now : Date) (prio : List String) (end_plan_year : Int)
    (records : List VaccineRecord) (out : List VaccineAppointment)
    (h : Vaccine.schedule now prio end_plan_year records = Outcome.ok out)
    (hneg : end_plan_year < now.year) :
    ∀ a ∈ out, a.kind ≠ DoseKind.Booster := by
  simp only [Vaccine.schedule] at h
  obtain ⟨raw, hraw, h⟩ := bind_ok h
  simp only [Outcome.ok.injEq] at h
  intro a ha
  rw [← h, mem_sort_appts] at ha
  exact scheduleLoop_neg_limit now _ records (by omega) prio raw hraw a ha

/-- Witness for C8 (amended): in the counterexample run the first returned
appointment is not a booster. -/
theorem C8_amended_witness :
    (⟨"Tdap", DoseKind.Dose 0, 2025, 6⟩ : VaccineAppointment).kind ≠ DoseKind.Booster :=
  C8_amended ⟨2025, 6⟩ ["Tdap"] 2024 []
    [⟨"Tdap", DoseKind.Dose 0, 2025, 6⟩, ⟨"Tdap", DoseKind.Dose 1, 2025, 12⟩,
      ⟨"Tdap", DoseKind.Dose 2, 2026, 6⟩]
    (by decide) (by decide) ⟨"Tdap", DoseKind.Dose 0, 2025, 6⟩ (by decide)

/-! ### C10: records of vaccines outside the enabled list are irrelevant -/

/-- Catalog lookup returns an entry carrying the looked-up name. -/
theorem get_vaccine_name (name : String) (v : Vaccine)
    (h : Vaccine.get_vaccine name = some v) : v.name = name := by
  have h' : Vaccine.get_vaccines.find? (fun w => w.name == name) = some v := h
  simpa using List.find?_some h'

theorem scheduleLoop_filter_prio (now : Date) (limit_mo : Int) (records : List VaccineRecord)
    (prio : List String) :
    ∀ rest : List String, (∀ n ∈ rest, n ∈ prio) →
      Vaccine.scheduleLoop now limit_mo records rest =
        Vaccine.scheduleLoop now limit_mo
          (records.filter fun r => decide (r.vaccine ∈ prio)) rest := by
  intro rest
  induction rest with
  | nil => intro _; rfl
  | cons hd tl ih =>
      intro hsub
      simp only [Vaccine.scheduleLoop]
      cases hv : Vaccine.get_vaccine hd with
      | none => simp only [hv]
      | some v =>
          simp only [hv]
          have hveq : v.name = hd := get_vaccine_name hd v hv
          have hfilter : (records.filter fun r => decide (r.vaccine ∈ prio)).filter
              (fun r => r.vaccine == v.name) =
              records.filter (fun r => r.vaccine == v.name) := by
            rw [List.filter_filter]
            refine List.filter_congr fun r hr => ?_
            rcases hq : r.vaccine == v.name with - | -
            · simp
            · have hrv : r.vaccine = v.name := by simpa using hq
              have hmem : r.vaccine ∈ prio := by
                rw [hrv, hveq]
                exact hsub hd (List.mem_cons_self hd tl)
              simp [hmem]
          rw [hfilter, ih fun n hn => hsub n (List.mem_cons_of_mem hd hn)]

/-- C10: records for vaccines that are not in the enabled list do not
influence the output: for every reference instant, enabled-vaccine order,
end year and record list, `schedule` returns the same result on the full
record list as on the sublist of records whose vaccine name matches some
enabled vaccine. -/
theorem C10_unenabled_records_no_influence (now : Date) (prio : List String)
    (end_plan_year : Int) (records : List VaccineRecord) :
    Vaccine.schedule now prio end_plan_year records =
      Vaccine.schedule now prio end_plan_year
        (records.filter fun r => decide (r.vaccine ∈ prio)) := by
  simp only [Vaccine.schedule]
  rw [scheduleLoop_filter_prio now _ records prio prio fun n hn => hn]

end VaccineHelper
